import Mathlib

/-!
# lxstats: the telemetry worker of `functions/stats.js`

A shallow embedding of the worker: the two MySQL tables become lists of rows,
every `db.execute` call becomes a pure function on the tables together with an
explicit outcome of the round-trip, and the three handlers become functions
from the process state to a response and the next process state.

Conventions of the embedding.

* Integer columns are `Int` (no width: the schema is not part of the source).
* String keys are compared by equality of the strings, in the tables as in
  the JavaScript object `statsMap`.
* `String.prototype.toLowerCase` is applied to a caller-supplied string, so it
  is a parameter `lower` of the handlers: every theorem holds for whatever
  mapping the engine implements.
* `request.json()` is not re-implemented: a request carries its outcome,
  either the message of the exception or the parsed value.
-/

namespace LxStats

/-! ## JavaScript values -/

/-- A value produced by `JSON.parse`, or `undefined` for a property that is
not there.  A number carries the value of the parsed double; the handlers only
test a number for being zero, and a literal that overflows to `Infinity` is
non-zero like every other non-zero number. -/
inductive JsVal where
  | undefined
  | null
  | bool (b : Bool)
  | num (x : ℚ)
  | str (s : String)
  | arr (items : List JsVal)
  | obj (props : List (String × JsVal))

/-- The `ToBoolean` conversion used by `&&`. -/
def JsVal.truthy : JsVal → Bool
  | .undefined => false
  | .null => false
  | .bool b => b
  | .num x => decide (x ≠ 0)
  | .str s => decide (s ≠ "")
  | .arr _ => true
  | .obj _ => true

/-- Property read `v[k]` on a value that is not `null`: an object gives the
value stored under the key, every other value has neither a `type` nor a
`source` property and gives `undefined`. -/
def JsVal.prop (v : JsVal) (k : String) : JsVal :=
  match v with
  | .obj props => (props.lookup k).getD .undefined
  | _ => .undefined

/-- Strict equality `v === s` with a string literal. -/
def JsVal.isStr (v : JsVal) (s : String) : Bool :=
  match v with
  | .str t => decide (t = s)
  | _ => false

/-- The `x || 0` idiom on a column value that may be `undefined`. -/
def orZero : Option Int → Int
  | none => 0
  | some v => if v = 0 then 0 else v

/-- `String.prototype.toUpperCase` on ASCII text (it is only applied to the
literals of `allSources`). -/
def toUpperCase (s : String) : String :=
  String.mk (s.data.map Char.toUpper)

/-! ## The store -/

/-- A row of table `global_stats`. -/
structure GlobalRow where
  id : String
  count_value : Int
  deriving DecidableEq, Repr

/-- A row of table `source_errors`. -/
structure ErrorRow where
  source_name : String
  error_count : Int
  deriving DecidableEq, Repr

/-- The database: the two tables. -/
structure Store where
  global_stats : List GlobalRow
  source_errors : List ErrorRow
  deriving DecidableEq, Repr

/-- The uniqueness constraint of `source_errors` on `source_name`. -/
def Store.UniqueSources (db : Store) : Prop :=
  (db.source_errors.map ErrorRow.source_name).Nodup

instance (db : Store) : Decidable db.UniqueSources := by
  unfold Store.UniqueSources; infer_instance

/-- The process: the module variable `pool` (created or still `null`) and the
database the pool talks to. -/
structure World where
  pool : Bool
  db : Store
  deriving DecidableEq, Repr

/-- What happens to one `db.execute` round-trip. -/
inductive Exec where
  /-- the statement runs and its result arrives -/
  | done
  /-- the statement is not run and `execute` throws -/
  | refused (message : String)
  /-- the statement runs, the reply is lost and `execute` throws -/
  | dropped (message : String)
  deriving DecidableEq, Repr

/-- The exception thrown by a round-trip, if any. -/
def Exec.failure : Exec → Option String
  | .done => none
  | .refused m => some m
  | .dropped m => some m

/-- Whether the statement of a round-trip reaches the tables. -/
def Exec.applied : Exec → Bool
  | .done => true
  | .refused _ => false
  | .dropped _ => true

/-- `SELECT count_value FROM global_stats WHERE id = 'total_requests'`. -/
def selectTotal (db : Store) : List Int :=
  (db.global_stats.filter (fun r => decide (r.id = "total_requests"))).map GlobalRow.count_value

/-- `SELECT source_name, error_count FROM source_errors ORDER BY error_count DESC`. -/
def selectErrors (db : Store) : List ErrorRow :=
  db.source_errors.insertionSort (fun a b => b.error_count ≤ a.error_count)

/-- `UPDATE global_stats SET count_value = count_value + 1 WHERE id = 'total_requests'`. -/
def updateTotal (db : Store) : Store :=
  { db with
    global_stats := db.global_stats.map (fun r =>
      if r.id = "total_requests" then { r with count_value := r.count_value + 1 } else r) }

/-- `INSERT INTO source_errors (source_name, error_count) VALUES (?, 1)
ON DUPLICATE KEY UPDATE error_count = error_count + 1`. -/
def upsertError (name : String) (db : Store) : Store :=
  if db.source_errors.any (fun r => decide (r.source_name = name)) then
    { db with
      source_errors := db.source_errors.map (fun r =>
        if r.source_name = name then { r with error_count := r.error_count + 1 } else r) }
  else
    { db with source_errors := db.source_errors ++ [{ source_name := name, error_count := 1 }] }

/-- A writing `db.execute`: the tables afterwards. -/
def Exec.write (x : Exec) (stmt : Store → Store) (db : Store) : Store :=
  if x.applied then stmt db else db

/-! ## Responses -/

/-- One element of `formattedErrors`. -/
structure FormattedError where
  source : String
  count : Int
  deriving DecidableEq, Repr

/-- The object literals passed to `JSON.stringify`. -/
inductive Payload where
  /-- the object `{ total, errors }` -/
  | stats (total : Int) (errors : List FormattedError)
  /-- the object `{ status }` -/
  | status (status : String)
  /-- the object `{ error }` -/
  | error (message : String)
  deriving DecidableEq, Repr

/-- The body of a response. -/
inductive Body where
  /-- the template literal of `renderHTML` -/
  | html
  /-- a plain string -/
  | text (s : String)
  /-- `JSON.stringify` of an object literal -/
  | json (p : Payload)
  deriving DecidableEq, Repr

/-- A `Response`: status (200 unless given), headers, body. -/
structure Response where
  status : Nat
  headers : List (String × String)
  body : Body
  deriving DecidableEq, Repr

/-- `new Response(JSON.stringify({ error: e.message }), { status: 500 })`. -/
def errorResponse (message : String) : Response :=
  { status := 500, headers := [], body := .json (.error message) }

/-- `getDbPool`: creates the pool when there is none. -/
def getDbPool (w : World) : World :=
  if w.pool then w else { w with pool := true }

/-- The body returned by `renderHTML`. -/
def renderHTML : Body := .html

/-! ## handleGetStats -/

/-- The array literal `allSources`. -/
def allSources : List String := ["kw", "kg", "tx", "wy", "mg"]

/-- The object `statsMap` after `errors.forEach(e => statsMap[e.source_name] = e.error_count)`,
as the function that reads a key: a later row of the same name overwrites an
earlier one.  The object is only read at the keys of `allSources`, none of
which is a property of `Object.prototype`. -/
def statsMap (errors : List ErrorRow) : String → Option Int :=
  errors.foldl (fun m e => fun k => if k = e.source_name then some e.error_count else m k)
    (fun _ => none)

/-- The array `formattedErrors` computed from the rows of the second query. -/
def formattedErrors (errorRows : List ErrorRow) : List FormattedError :=
  allSources.map (fun src =>
    { source := toUpperCase src, count := orZero (statsMap errorRows src) })

/-- The success response of `handleGetStats` from the rows of the two queries. -/
def statsResponse (totalRows : List Int) (errorRows : List ErrorRow) : Response :=
  { status := 200,
    headers := [("Content-Type", "application/json"), ("Access-Control-Allow-Origin", "*")],
    body := .json (.stats (orZero totalRows.head?) (formattedErrors errorRows)) }

/-- `handleGetStats(env)`, with the outcomes of its two queries. -/
def handleGetStats (w : World) (x1 x2 : Exec) : Response × World :=
  let w := getDbPool w
  match x1.failure with
  | some m => (errorResponse m, w)
  | none =>
    match x2.failure with
    | some m => (errorResponse m, w)
    | none => (statsResponse (selectTotal w.db) (selectErrors w.db), w)

/-! ## handleReport -/

/-- The message of the `TypeError` thrown by `const { type, source } = body`
when `body` is `null`, in the words of V8. -/
def destructureError : String :=
  "Cannot destructure property \x27type\x27 of \x27body\x27 as it is null."

/-- The message of the `TypeError` thrown by calling `source.toLowerCase` on a
value that is not a string, in the words of V8. -/
def notAFunctionError : String := "source.toLowerCase is not a function"

/-- The success response of `handleReport`. -/
def okResponse : Response :=
  { status := 200, headers := [("Access-Control-Allow-Origin", "*")],
    body := .json (.status "ok") }

/-- The end of a branch that ran one writing statement. -/
def afterWrite (x : Exec) (stmt : Store → Store) (w : World) : Response × World :=
  let w := { w with db := x.write stmt w.db }
  match x.failure with
  | some m => (errorResponse m, w)
  | none => (okResponse, w)

/-- `handleReport(request, env)`: `json` is the outcome of `request.json()`,
`x` the outcome of the statement the handler runs, if it runs one. -/
def handleReport (lower : String → String) (w : World) (x : Exec)
    (json : Except String JsVal) : Response × World :=
  match json with
  | .error m => (errorResponse m, w)
  | .ok .null => (errorResponse destructureError, w)
  | .ok body =>
    let type := body.prop "type"
    let source := body.prop "source"
    let w := getDbPool w
    if type.isStr "request" then
      afterWrite x updateTotal w
    else if type.isStr "error" && source.truthy then
      match source with
      | .str s => afterWrite x (upsertError (lower s)) w
      | _ => (errorResponse notAFunctionError, w)
    else
      (okResponse, w)

/-! ## fetch -/

/-- A request: method, `new URL(request.url).pathname`, and the outcome of
`request.json()`. -/
structure Request where
  method : String
  path : String
  json : Except String JsVal

/-- The `fetch` entry point; `x1`, `x2` are the outcomes of the first and the
second statement the request runs. -/
def fetch (lower : String → String) (w : World) (request : Request) (x1 x2 : Exec) :
    Response × World :=
  if request.path = "/" ∧ request.method = "GET" then
    ({ status := 200, headers := [("Content-Type", "text/html;charset=UTF-8")],
       body := renderHTML }, w)
  else if request.path = "/api/stats" ∧ request.method = "GET" then
    handleGetStats w x1 x2
  else if request.path = "/api/report" ∧ request.method = "POST" then
    handleReport lower w x1 request.json
  else
    ({ status := 404, headers := [], body := .text "Not Found" }, w)

/-- ASCII lower-casing, the restriction of `toLowerCase` to ASCII text. -/
def asciiLower (s : String) : String :=
  String.mk (s.data.map Char.toLower)

/-! ## Reading the tables directly

The definitions below do not come from the handlers: they read a table the
way the data model describes it, and the theorems compare the handlers with
them. -/

/-- The count stored for a source name in a list of rows, 0 without a row. -/
def countIn (rows : List ErrorRow) (name : String) : Int :=
  match rows.find? (fun r => decide (r.source_name = name)) with
  | some r => r.error_count
  | none => 0

/-- The stored error count of a source name, 0 without a row. -/
def storedCount (db : Store) (name : String) : Int :=
  countIn db.source_errors name

/-- The stored value of the global counter, 0 without its row. -/
def storedTotal (db : Store) : Int :=
  match db.global_stats.find? (fun r => decide (r.id = "total_requests")) with
  | some r => r.count_value
  | none => 0

/-- Whether the row `total_requests` of `global_stats` exists. -/
def hasTotalRow (db : Store) : Bool :=
  db.global_stats.any (fun r => decide (r.id = "total_requests"))

/-- The `total` of a stats response, if the response is one. -/
def Response.total (r : Response) : Option Int :=
  match r.body with
  | .json (.stats t _) => some t
  | _ => none

/-- The `count` of the entry of a stats response with the given `source`. -/
def Response.count (r : Response) (source : String) : Option Int :=
  match r.body with
  | .json (.stats _ errors) =>
    (errors.find? (fun e => decide (e.source = source))).map FormattedError.count
  | _ => none

/-- The parsed body `{type:"request"}`. -/
def requestBody : Except String JsVal :=
  .ok (.obj [("type", .str "request")])

/-- The parsed body `{type:"error", source:s}`. -/
def errorBody (s : String) : Except String JsVal :=
  .ok (.obj [("type", .str "error"), ("source", .str s)])

/-- The process after `n` reports `{type:"request"}`, none with a storage failure. -/
def reportRequests (lower : String → String) : Nat → World → World
  | 0, w => w
  | n + 1, w => reportRequests lower n (handleReport lower w .done requestBody).2

/-- The counters of `db'` are those of `db`, none lowered: the rows of
`global_stats` are the same rows in place with values at least as large, the
rows of `source_errors` are kept in place with counts at least as large and
followed by the inserted rows (count 1), the stored total and every stored
count are at least what they were, and counts that were all non-negative are
all non-negative. -/
def Store.Grew (db db' : Store) : Prop :=
  List.Forall₂ (fun r r' : GlobalRow => r'.id = r.id ∧ r.count_value ≤ r'.count_value)
    db.global_stats db'.global_stats ∧
  (∃ kept added : List ErrorRow, db'.source_errors = kept ++ added ∧
    List.Forall₂ (fun r r' : ErrorRow =>
      r'.source_name = r.source_name ∧ r.error_count ≤ r'.error_count) db.source_errors kept ∧
    ∀ r ∈ added, r.error_count = 1) ∧
  storedTotal db ≤ storedTotal db' ∧
  (∀ name : String, storedCount db name ≤ storedCount db' name) ∧
  ((∀ r ∈ db.global_stats, 0 ≤ r.count_value) → ∀ r ∈ db'.global_stats, 0 ≤ r.count_value) ∧
  ((∀ r ∈ db.source_errors, 0 ≤ r.error_count) → ∀ r ∈ db'.source_errors, 0 ≤ r.error_count)

/-! ## Lemmas on the tables -/

theorem orZero_some (v : Int) : orZero (some v) = v := by
  show (if v = 0 then 0 else v) = v
  split_ifs with h
  · exact h.symm
  · rfl

theorem statsMap_append (l : List ErrorRow) (e : ErrorRow) (k : String) :
    statsMap (l ++ [e]) k = if k = e.source_name then some e.error_count else statsMap l k := by
  simp [statsMap, List.foldl_append]

theorem statsMap_of_not_mem (l : List ErrorRow) (k : String)
    (h : ∀ r ∈ l, r.source_name ≠ k) : statsMap l k = none := by
  induction l using List.reverseRecOn with
  | nil => rfl
  | append_singleton l e ih =>
    rw [statsMap_append]
    have he : e.source_name ≠ k := h e (by simp)
    rw [if_neg (fun hk => he hk.symm)]
    exact ih (fun r hr => h r (by simp [hr]))

theorem statsMap_of_mem (l : List ErrorRow) (r : ErrorRow)
    (hnd : (l.map ErrorRow.source_name).Nodup) (hr : r ∈ l) :
    statsMap l r.source_name = some r.error_count := by
  induction l using List.reverseRecOn with
  | nil => cases hr
  | append_singleton l e ih =>
    rw [statsMap_append]
    rw [List.map_append, List.nodup_append] at hnd
    obtain ⟨hl, _, hdis⟩ := hnd
    rcases List.mem_append.mp hr with h | h
    · have hne : r.source_name ≠ e.source_name := by
        intro heq
        exact hdis (List.mem_map_of_mem _ h) (by simp [heq])
      rw [if_neg hne]
      exact ih hl h
    · have : r = e := by simpa using h
      subst this
      simp

theorem find_of_mem (l : List ErrorRow) (r : ErrorRow)
    (hnd : (l.map ErrorRow.source_name).Nodup) (hr : r ∈ l) :
    l.find? (fun x => decide (x.source_name = r.source_name)) = some r := by
  induction l with
  | nil => cases hr
  | cons a l ih =>
    rw [List.map_cons, List.nodup_cons] at hnd
    rcases List.mem_cons.mp hr with h | h
    · subst h; simp
    · have hne : a.source_name ≠ r.source_name := by
        intro heq
        exact hnd.1 (heq ▸ List.mem_map_of_mem _ h)
      rw [List.find?_cons_of_neg _ (by simpa using hne)]
      exact ih hnd.2 h

theorem countIn_of_mem (l : List ErrorRow) (r : ErrorRow)
    (hnd : (l.map ErrorRow.source_name).Nodup) (hr : r ∈ l) :
    countIn l r.source_name = r.error_count := by
  unfold countIn
  rw [find_of_mem l r hnd hr]

theorem countIn_of_not_mem (l : List ErrorRow) (k : String)
    (h : ∀ r ∈ l, r.source_name ≠ k) : countIn l k = 0 := by
  unfold countIn
  have : l.find? (fun r => decide (r.source_name = k)) = none := by
    rw [List.find?_eq_none]
    intro r hr
    simpa using h r hr
  rw [this]

/-- Under the uniqueness constraint, what `statsMap[k] || 0` reads from any
arrangement of the rows is the stored count. -/
theorem orZero_statsMap_perm (l l' : List ErrorRow) (k : String)
    (hnd : (l.map ErrorRow.source_name).Nodup) (hp : l'.Perm l) :
    orZero (statsMap l' k) = countIn l k := by
  have hnd' : (l'.map ErrorRow.source_name).Nodup := (hp.map _).nodup_iff.mpr hnd
  by_cases h : ∃ r ∈ l, r.source_name = k
  · obtain ⟨r, hr, rfl⟩ := h
    rw [statsMap_of_mem l' r hnd' (hp.mem_iff.mpr hr), countIn_of_mem l r hnd hr, orZero_some]
  · push_neg at h
    rw [statsMap_of_not_mem l' k (fun r hr => h r (hp.mem_iff.mp hr)), countIn_of_not_mem l k h]
    rfl

theorem selectErrors_perm (db : Store) : (selectErrors db).Perm db.source_errors :=
  List.perm_insertionSort _ _

theorem head_filter_map (p : GlobalRow → Bool) (l : List GlobalRow) :
    ((l.filter p).map GlobalRow.count_value).head? = (l.find? p).map GlobalRow.count_value := by
  induction l with
  | nil => rfl
  | cons a l ih =>
    cases h : p a
    · rw [List.filter_cons_of_neg (by simp [h]), List.find?_cons_of_neg _ (by simp [h])]
      exact ih
    · rw [List.filter_cons_of_pos h, List.find?_cons_of_pos _ h]
      rfl

theorem head_selectTotal (db : Store) : orZero (selectTotal db).head? = storedTotal db := by
  unfold selectTotal storedTotal
  rw [head_filter_map]
  cases db.global_stats.find? (fun r => decide (r.id = "total_requests")) with
  | none => rfl
  | some r => exact orZero_some _

theorem find_map_global (f : GlobalRow → GlobalRow) (p : GlobalRow → Bool)
    (hf : ∀ r, p (f r) = p r) (l : List GlobalRow) :
    (l.map f).find? p = (l.find? p).map f := by
  induction l with
  | nil => rfl
  | cons a l ih =>
    cases h : p a
    · rw [List.map_cons, List.find?_cons_of_neg _ (by simp [hf, h]),
        List.find?_cons_of_neg _ (by simp [h])]
      exact ih
    · rw [List.map_cons, List.find?_cons_of_pos _ (by simp [hf, h]),
        List.find?_cons_of_pos _ h]
      rfl

theorem hasTotalRow_updateTotal (db : Store) : hasTotalRow (updateTotal db) = hasTotalRow db := by
  unfold hasTotalRow updateTotal
  simp only [List.any_map]
  congr 1
  funext r
  by_cases h : r.id = "total_requests" <;> simp [h]

theorem storedTotal_updateTotal (db : Store) :
    storedTotal (updateTotal db) = storedTotal db + if hasTotalRow db then 1 else 0 := by
  unfold storedTotal updateTotal hasTotalRow
  simp only []
  rw [find_map_global _ _ (by intro r; by_cases h : r.id = "total_requests" <;> simp [h])]
  cases hfind : db.global_stats.find? (fun r => decide (r.id = "total_requests")) with
  | none =>
    have : db.global_stats.any (fun r => decide (r.id = "total_requests")) = false := by
      rw [List.find?_eq_none] at hfind
      simpa using hfind
    simp [this]
  | some r =>
    have hr := List.find?_some hfind
    have hmem := List.mem_of_find?_eq_some hfind
    have : db.global_stats.any (fun r => decide (r.id = "total_requests")) = true := by
      rw [List.any_eq_true]
      exact ⟨r, hmem, hr⟩
    have hid : r.id = "total_requests" := by simpa using hr
    simp [this, hid]

theorem getDbPool_db (w : World) : (getDbPool w).db = w.db := by
  unfold getDbPool
  split_ifs <;> rfl

theorem handleGetStats_done (w : World) :
    (handleGetStats w .done .done).1 = statsResponse (selectTotal w.db) (selectErrors w.db) := by
  simp [handleGetStats, Exec.failure, getDbPool_db]

theorem handleReport_request_db (lower : String → String) (w : World) :
    (handleReport lower w .done requestBody).2.db = updateTotal w.db := by
  simp [handleReport, requestBody, JsVal.prop, JsVal.isStr, afterWrite, Exec.write,
    Exec.applied, Exec.failure, getDbPool_db, List.lookup]

theorem reportRequests_total (lower : String → String) (n : Nat) (w : World) :
    storedTotal (reportRequests lower n w).db =
      storedTotal w.db + if hasTotalRow w.db then (n : Int) else 0 := by
  induction n generalizing w with
  | zero => simp [reportRequests]
  | succ n ih =>
    rw [reportRequests, ih, handleReport_request_db, storedTotal_updateTotal,
      hasTotalRow_updateTotal]
    split_ifs <;> push_cast <;> ring

theorem stats_total (w : World) :
    (handleGetStats w .done .done).1.total = some (storedTotal w.db) := by
  rw [handleGetStats_done]
  simp [statsResponse, Response.total, head_selectTotal]

/-! ## Lemmas on the upsert -/

theorem find_map_error (f : ErrorRow → ErrorRow) (p : ErrorRow → Bool)
    (hf : ∀ r, p (f r) = p r) (l : List ErrorRow) :
    (l.map f).find? p = (l.find? p).map f := by
  induction l with
  | nil => rfl
  | cons a l ih =>
    cases h : p a
    · rw [List.map_cons, List.find?_cons_of_neg _ (by simp [hf, h]),
        List.find?_cons_of_neg _ (by simp [h])]
      exact ih
    · rw [List.map_cons, List.find?_cons_of_pos _ (by simp [hf, h]),
        List.find?_cons_of_pos _ h]
      rfl

/-- The row update of the `ON DUPLICATE KEY UPDATE` branch. -/
theorem bump_name (k : String) (r : ErrorRow) :
    (if r.source_name = k then { r with error_count := r.error_count + 1 } else r).source_name
      = r.source_name := by
  split_ifs <;> rfl

theorem upsertError_global (k : String) (db : Store) :
    (upsertError k db).global_stats = db.global_stats := by
  unfold upsertError
  split_ifs <;> rfl

theorem upsertError_names (k : String) (db : Store) :
    (upsertError k db).source_errors.map ErrorRow.source_name =
      if db.source_errors.any (fun r => decide (r.source_name = k)) then
        db.source_errors.map ErrorRow.source_name
      else db.source_errors.map ErrorRow.source_name ++ [k] := by
  unfold upsertError
  split_ifs with h
  · simp only [List.map_map]
    apply List.map_congr_left
    intro r _
    exact bump_name k r
  · simp

theorem upsertError_unique (k : String) (db : Store) (h : db.UniqueSources) :
    (upsertError k db).UniqueSources := by
  unfold Store.UniqueSources at *
  rw [upsertError_names]
  split_ifs with hany
  · exact h
  · rw [List.nodup_append]
    refine ⟨h, List.nodup_singleton k, ?_⟩
    intro a ha hb
    have hk : a = k := by simpa using hb
    subst hk
    apply hany
    rw [List.any_eq_true]
    obtain ⟨r, hr, hrk⟩ := List.mem_map.mp ha
    exact ⟨r, hr, by simpa using hrk⟩

theorem countIn_upsert_same (k : String) (db : Store) :
    countIn (upsertError k db).source_errors k = countIn db.source_errors k + 1 := by
  unfold upsertError countIn
  split_ifs with hany
  · simp only []
    rw [find_map_error _ _ (by intro r; simp [bump_name])]
    rw [List.any_eq_true] at hany
    obtain ⟨r, hr, hrk⟩ := hany
    cases hfind : db.source_errors.find? (fun r => decide (r.source_name = k)) with
    | none =>
      rw [List.find?_eq_none] at hfind
      exact absurd hrk (hfind r hr)
    | some r' =>
      have hk : r'.source_name = k := by simpa using List.find?_some hfind
      simp [hk]
  · simp only []
    have hnone : db.source_errors.find? (fun r => decide (r.source_name = k)) = none := by
      rw [List.find?_eq_none]
      intro r hr hrk
      exact hany (List.any_eq_true.mpr ⟨r, hr, hrk⟩)
    rw [List.find?_append, hnone]
    simp

theorem countIn_upsert_other (k k' : String) (db : Store) (hne : k' ≠ k) :
    countIn (upsertError k db).source_errors k' = countIn db.source_errors k' := by
  unfold upsertError countIn
  split_ifs with hany
  · simp only []
    rw [find_map_error _ _ (by intro r; simp [bump_name])]
    cases hfind : db.source_errors.find? (fun r => decide (r.source_name = k')) with
    | none => rfl
    | some r' =>
      have hk : r'.source_name = k' := by simpa using List.find?_some hfind
      have : r'.source_name ≠ k := hk ▸ hne
      simp [this]
  · simp only []
    rw [List.find?_append]
    have : [({ source_name := k, error_count := 1 } : ErrorRow)].find?
        (fun r => decide (r.source_name = k')) = none := by
      simp [List.find?_cons, Ne.symm hne]
    rw [this]
    cases db.source_errors.find? (fun r => decide (r.source_name = k')) <;> rfl

theorem upsertError_mem (k : String) (db : Store) (h : db.UniqueSources) :
    ({ source_name := k, error_count := countIn db.source_errors k + 1 } : ErrorRow)
      ∈ (upsertError k db).source_errors := by
  have hu := upsertError_unique k db h
  have hex : ∃ r ∈ (upsertError k db).source_errors, r.source_name = k := by
    unfold upsertError
    split_ifs with hany
    · rw [List.any_eq_true] at hany
      obtain ⟨r, hr, hrk⟩ := hany
      refine ⟨_, List.mem_map_of_mem _ hr, ?_⟩
      rw [bump_name]
      simpa using hrk
    · exact ⟨{ source_name := k, error_count := 1 }, by simp, rfl⟩
  obtain ⟨r, hr, hrk⟩ := hex
  have hc := countIn_of_mem _ r hu hr
  rw [hrk, countIn_upsert_same] at hc
  have : r = { source_name := k, error_count := countIn db.source_errors k + 1 } := by
    cases r
    simp only [ErrorRow.mk.injEq]
    exact ⟨hrk, hc.symm⟩
  rw [← this]
  exact hr

theorem upsertError_filter (k : String) (db : Store) :
    (upsertError k db).source_errors.filter (fun r => decide (r.source_name ≠ k)) =
      db.source_errors.filter (fun r => decide (r.source_name ≠ k)) := by
  unfold upsertError
  split_ifs with hany
  · simp only []
    generalize db.source_errors = l
    induction l with
    | nil => rfl
    | cons a l ih =>
      have ih' := ih
      simp only [decide_not] at ih'
      by_cases ha : a.source_name = k
      · simp [ha, ih']
      · simp [ha, ih']
  · simp

/-! ## Lemmas on the stats payload -/

theorem formattedErrors_perm (l rows : List ErrorRow)
    (hnd : (l.map ErrorRow.source_name).Nodup) (hp : rows.Perm l) :
    formattedErrors rows =
      [⟨"KW", countIn l "kw"⟩, ⟨"KG", countIn l "kg"⟩, ⟨"TX", countIn l "tx"⟩,
       ⟨"WY", countIn l "wy"⟩, ⟨"MG", countIn l "mg"⟩] := by
  have h1 : toUpperCase "kw" = "KW" := by decide
  have h2 : toUpperCase "kg" = "KG" := by decide
  have h3 : toUpperCase "tx" = "TX" := by decide
  have h4 : toUpperCase "wy" = "WY" := by decide
  have h5 : toUpperCase "mg" = "MG" := by decide
  simp only [formattedErrors, allSources, List.map_cons, List.map_nil, h1, h2, h3, h4, h5,
    orZero_statsMap_perm l rows _ hnd hp]

theorem stats_count (w : World) (h : w.db.UniqueSources) (code : String)
    (hc : code ∈ allSources) :
    (handleGetStats w .done .done).1.count (toUpperCase code) = some (storedCount w.db code) := by
  rw [handleGetStats_done]
  simp only [statsResponse, Response.count,
    formattedErrors_perm w.db.source_errors _ h (selectErrors_perm w.db), storedCount]
  simp only [allSources, List.mem_cons, List.mem_singleton, List.not_mem_nil, or_false] at hc
  rcases hc with rfl | rfl | rfl | rfl | rfl <;> rfl

/-! ## Lemmas on the handlers -/

theorem handleGetStats_response (w : World) (x1 x2 : Exec) :
    (handleGetStats w x1 x2).1 =
      match x1.failure with
      | some m => errorResponse m
      | none =>
        match x2.failure with
        | some m => errorResponse m
        | none => statsResponse (selectTotal w.db) (selectErrors w.db) := by
  unfold handleGetStats
  cases x1.failure <;> cases x2.failure <;> simp [getDbPool_db]

theorem handleGetStats_world (w : World) (x1 x2 : Exec) :
    (handleGetStats w x1 x2).2 = getDbPool w := by
  unfold handleGetStats
  cases x1.failure <;> cases x2.failure <;> rfl

theorem statsResponse_stored (db : Store) (h : db.UniqueSources) (rows : List ErrorRow)
    (hp : rows.Perm db.source_errors) :
    statsResponse (selectTotal db) rows =
      { status := 200,
        headers := [("Content-Type", "application/json"), ("Access-Control-Allow-Origin", "*")],
        body := .json (.stats (storedTotal db)
          [⟨"KW", storedCount db "kw"⟩, ⟨"KG", storedCount db "kg"⟩,
           ⟨"TX", storedCount db "tx"⟩, ⟨"WY", storedCount db "wy"⟩,
           ⟨"MG", storedCount db "mg"⟩]) } := by
  simp only [statsResponse, head_selectTotal, formattedErrors_perm _ rows h hp, storedCount]

/-- The stats response is determined by the stored total and the stored counts
of the five known codes. -/
theorem handleGetStats_congr (w w' : World) (h : w.db.UniqueSources) (h' : w'.db.UniqueSources)
    (ht : storedTotal w'.db = storedTotal w.db)
    (hc : ∀ code ∈ allSources, storedCount w'.db code = storedCount w.db code)
    (x1 x2 : Exec) :
    (handleGetStats w' x1 x2).1 = (handleGetStats w x1 x2).1 := by
  rw [handleGetStats_response, handleGetStats_response,
    statsResponse_stored w.db h _ (selectErrors_perm _),
    statsResponse_stored w'.db h' _ (selectErrors_perm _), ht,
    hc "kw" (by decide), hc "kg" (by decide), hc "tx" (by decide), hc "wy" (by decide),
    hc "mg" (by decide)]

theorem afterWrite_db (x : Exec) (stmt : Store → Store) (w : World) :
    (afterWrite x stmt w).2.db = if x.applied then stmt w.db else w.db := by
  unfold afterWrite Exec.write
  cases x.failure <;> rfl

theorem afterWrite_response (x : Exec) (stmt : Store → Store) (w : World) :
    (afterWrite x stmt w).1 =
      match x.failure with
      | some m => errorResponse m
      | none => okResponse := by
  unfold afterWrite
  cases x.failure <;> rfl

theorem handleReport_error (lower : String → String) (w : World) (x : Exec) (s : String)
    (hs : s ≠ "") :
    handleReport lower w x (errorBody s) = afterWrite x (upsertError (lower s)) (getDbPool w) := by
  simp [handleReport, errorBody, JsVal.prop, JsVal.isStr, JsVal.truthy, List.lookup, hs]

theorem handleReport_error_done (lower : String → String) (w : World) (s : String)
    (hs : s ≠ "") :
    (handleReport lower w .done (errorBody s)).1 = okResponse ∧
    (handleReport lower w .done (errorBody s)).2.db = upsertError (lower s) w.db := by
  rw [handleReport_error lower w .done s hs, afterWrite_db, afterWrite_response]
  simp [Exec.failure, Exec.applied, getDbPool_db]

theorem handleReport_request (lower : String → String) (w : World) (x : Exec) :
    handleReport lower w x requestBody = afterWrite x updateTotal (getDbPool w) := by
  simp [handleReport, requestBody, JsVal.prop, JsVal.isStr, List.lookup]

theorem handleReport_error_empty (lower : String → String) (w : World) (x : Exec) :
    handleReport lower w x (errorBody "") = (okResponse, getDbPool w) := by
  simp [handleReport, errorBody, JsVal.prop, JsVal.isStr, JsVal.truthy, List.lookup]

theorem handleReport_error_db (lower : String → String) (w : World) (x : Exec) (s : String) :
    (handleReport lower w x (errorBody s)).2.db = w.db ∨
    (handleReport lower w x (errorBody s)).2.db = upsertError (lower s) w.db := by
  by_cases hs : s = ""
  · subst hs
    rw [handleReport_error_empty]
    exact Or.inl (getDbPool_db w)
  · rw [handleReport_error lower w x s hs, afterWrite_db, getDbPool_db]
    cases x.applied
    · exact Or.inl rfl
    · exact Or.inr rfl

/-- The tables after any report are the tables before, or those after the
`UPDATE`, or those after the upsert of some name. -/
theorem handleReport_db_cases (lower : String → String) (w : World) (x : Exec)
    (json : Except String JsVal) :
    (handleReport lower w x json).2.db = w.db ∨
    (handleReport lower w x json).2.db = updateTotal w.db ∨
    ∃ name, (handleReport lower w x json).2.db = upsertError name w.db := by
  have haw : ∀ stmt : Store → Store, (afterWrite x stmt (getDbPool w)).2.db = w.db ∨
      (afterWrite x stmt (getDbPool w)).2.db = stmt w.db := by
    intro stmt
    rw [afterWrite_db, getDbPool_db]
    cases x.applied
    · exact Or.inl rfl
    · exact Or.inr rfl
  have hrun : ∀ body : JsVal,
      ((if (body.prop "type").isStr "request" then
        afterWrite x updateTotal (getDbPool w)
      else if (body.prop "type").isStr "error" && (body.prop "source").truthy then
        match body.prop "source" with
        | .str s => afterWrite x (upsertError (lower s)) (getDbPool w)
        | _ => (errorResponse notAFunctionError, getDbPool w)
      else (okResponse, getDbPool w)) : Response × World).2.db = w.db ∨
      ((if (body.prop "type").isStr "request" then
        afterWrite x updateTotal (getDbPool w)
      else if (body.prop "type").isStr "error" && (body.prop "source").truthy then
        match body.prop "source" with
        | .str s => afterWrite x (upsertError (lower s)) (getDbPool w)
        | _ => (errorResponse notAFunctionError, getDbPool w)
      else (okResponse, getDbPool w)) : Response × World).2.db = updateTotal w.db ∨
      ∃ name, ((if (body.prop "type").isStr "request" then
        afterWrite x updateTotal (getDbPool w)
      else if (body.prop "type").isStr "error" && (body.prop "source").truthy then
        match body.prop "source" with
        | .str s => afterWrite x (upsertError (lower s)) (getDbPool w)
        | _ => (errorResponse notAFunctionError, getDbPool w)
      else (okResponse, getDbPool w)) : Response × World).2.db = upsertError name w.db := by
    intro body
    split_ifs with h1 h2
    · rcases haw updateTotal with h | h
      · exact Or.inl h
      · exact Or.inr (Or.inl h)
    · cases hsrc : body.prop "source" with
      | str s =>
        rcases haw (upsertError (lower s)) with h | h
        · exact Or.inl h
        · exact Or.inr (Or.inr ⟨lower s, h⟩)
      | _ => exact Or.inl (getDbPool_db w)
    · exact Or.inl (getDbPool_db w)
  cases json with
  | error m => exact Or.inl rfl
  | ok body =>
    cases body with
    | null => exact Or.inl rfl
    | _ => exact hrun _

theorem fetch_db_cases (lower : String → String) (w : World) (request : Request)
    (x1 x2 : Exec) :
    (fetch lower w request x1 x2).2.db = w.db ∨
    (fetch lower w request x1 x2).2.db = updateTotal w.db ∨
    ∃ name, (fetch lower w request x1 x2).2.db = upsertError name w.db := by
  unfold fetch
  split_ifs
  · exact Or.inl rfl
  · rw [handleGetStats_world]
    exact Or.inl (getDbPool_db w)
  · exact handleReport_db_cases lower w x1 request.json
  · exact Or.inl rfl

/-! ## Lemmas on growth -/

theorem grew_refl (db : Store) : db.Grew db := by
  refine ⟨List.forall₂_same.mpr (fun r _ => ⟨rfl, le_refl _⟩), ⟨db.source_errors, [], by simp,
    List.forall₂_same.mpr (fun r _ => ⟨rfl, le_refl _⟩), by simp⟩, le_refl _, fun _ => le_refl _,
    fun h => h, fun h => h⟩

theorem grew_updateTotal (db : Store) : db.Grew (updateTotal db) := by
  refine ⟨?_, ⟨db.source_errors, [], by simp [updateTotal],
    List.forall₂_same.mpr (fun r _ => ⟨rfl, le_refl _⟩), by simp⟩, ?_, fun _ => le_refl _, ?_,
    fun h => h⟩
  · unfold updateTotal
    rw [List.forall₂_map_right_iff]
    refine List.forall₂_same.mpr (fun r _ => ?_)
    split_ifs
    · exact ⟨rfl, by simp⟩
    · exact ⟨rfl, le_refl _⟩
  · rw [storedTotal_updateTotal]
    split_ifs <;> simp
  · intro h r hr
    unfold updateTotal at hr
    obtain ⟨r0, hr0, rfl⟩ := List.mem_map.mp hr
    have := h r0 hr0
    split_ifs
    · show 0 ≤ r0.count_value + 1
      omega
    · exact this

theorem grew_upsertError (name : String) (db : Store) : db.Grew (upsertError name db) := by
  refine ⟨?_, ?_, ?_, ?_, ?_, ?_⟩
  · rw [upsertError_global]
    exact List.forall₂_same.mpr (fun r _ => ⟨rfl, le_refl _⟩)
  · unfold upsertError
    split_ifs
    · refine ⟨_, [], (List.append_nil _).symm, ?_, by simp⟩
      rw [List.forall₂_map_right_iff]
      refine List.forall₂_same.mpr (fun r _ => ?_)
      split_ifs
      · exact ⟨rfl, by simp⟩
      · exact ⟨rfl, le_refl _⟩
    · exact ⟨db.source_errors, [{ source_name := name, error_count := 1 }], rfl,
        List.forall₂_same.mpr (fun r _ => ⟨rfl, le_refl _⟩), by simp⟩
  · unfold storedTotal
    rw [upsertError_global]
  · intro k
    unfold storedCount
    by_cases hk : k = name
    · subst hk
      rw [countIn_upsert_same]
      omega
    · rw [countIn_upsert_other name k db hk]
  · intro h
    rw [upsertError_global]
    exact h
  · intro h r hr
    unfold upsertError at hr
    split_ifs at hr
    · obtain ⟨r0, hr0, rfl⟩ := List.mem_map.mp hr
      have := h r0 hr0
      split_ifs
      · show 0 ≤ r0.error_count + 1
        omega
      · exact this
    · rcases List.mem_append.mp hr with h1 | h1
      · exact h r h1
      · have : r = { source_name := name, error_count := 1 } := by simpa using h1
        rw [this]
        exact Int.zero_le_ofNat 1

/-! ## The claims -/

/-- C3: under the uniqueness constraint on source names, a successful
`handleGetStats` answers status 200 with the payload `{ total, errors }` where
`total` is the stored global counter (0 without its row) and `errors` is exactly
the five entries KW, KG, TX, WY, MG in that order, each with the stored count of
the lower-cased code (0 without a row); rows of other sources do not appear, and
the same response is built from every arrangement of the rows the query may return. -/
theorem handleGetStats_payload (w : World) (h : w.db.UniqueSources) :
    (handleGetStats w .done .done).1 =
      { status := 200,
        headers := [("Content-Type", "application/json"), ("Access-Control-Allow-Origin", "*")],
        body := .json (.stats (storedTotal w.db)
          [⟨"KW", storedCount w.db "kw"⟩, ⟨"KG", storedCount w.db "kg"⟩,
           ⟨"TX", storedCount w.db "tx"⟩, ⟨"WY", storedCount w.db "wy"⟩,
           ⟨"MG", storedCount w.db "mg"⟩]) } ∧
    ∀ rows : List ErrorRow, rows.Perm w.db.source_errors →
      statsResponse (selectTotal w.db) rows = (handleGetStats w .done .done).1 := by
  have key : ∀ rows : List ErrorRow, rows.Perm w.db.source_errors →
      statsResponse (selectTotal w.db) rows =
        { status := 200,
          headers := [("Content-Type", "application/json"), ("Access-Control-Allow-Origin", "*")],
          body := .json (.stats (storedTotal w.db)
            [⟨"KW", storedCount w.db "kw"⟩, ⟨"KG", storedCount w.db "kg"⟩,
             ⟨"TX", storedCount w.db "tx"⟩, ⟨"WY", storedCount w.db "wy"⟩,
             ⟨"MG", storedCount w.db "mg"⟩]) } := by
    intro rows hp
    simp only [statsResponse, head_selectTotal, formattedErrors_perm _ rows h hp, storedCount]
  have hmain := key _ (selectErrors_perm w.db)
  rw [handleGetStats_done]
  exact ⟨hmain, fun rows hp => (key rows hp).trans hmain.symm⟩

/-- Witness of C3: a store holding the global row, a row of an unknown source
with the largest count and a row of `kw`. -/
theorem handleGetStats_payload_witness :
    (handleGetStats ⟨false, ⟨[⟨"total_requests", 7⟩], [⟨"kw", 3⟩, ⟨"zz", 9⟩]⟩⟩ .done .done).1 =
      { status := 200,
        headers := [("Content-Type", "application/json"), ("Access-Control-Allow-Origin", "*")],
        body := .json (.stats 7 [⟨"KW", 3⟩, ⟨"KG", 0⟩, ⟨"TX", 0⟩, ⟨"WY", 0⟩, ⟨"MG", 0⟩]) } :=
  (handleGetStats_payload ⟨false, ⟨[⟨"total_requests", 7⟩], [⟨"kw", 3⟩, ⟨"zz", 9⟩]⟩⟩
    (by decide)).1.trans (by decide)

/-- With the row `total_requests` present, `n` reports `{type:"request"}`
without storage failure raise the total returned by `handleGetStats` by `n`;
without the row the total is 0 before and after. -/
theorem requests_add_to_total (lower : String → String) (w : World) (n : Nat) :
    ∃ t : Int, (handleGetStats w .done .done).1.total = some t ∧
      (handleGetStats (reportRequests lower n w) .done .done).1.total =
        some (t + if hasTotalRow w.db then (n : Int) else 0) ∧
      (hasTotalRow w.db = false → t = 0) := by
  refine ⟨storedTotal w.db, stats_total w, ?_, ?_⟩
  · rw [stats_total, reportRequests_total]
  · intro hno
    unfold storedTotal
    have : w.db.global_stats.find? (fun r => decide (r.id = "total_requests")) = none := by
      rw [List.find?_eq_none]
      intro r hr hrk
      have : hasTotalRow w.db = true := List.any_eq_true.mpr ⟨r, hr, hrk⟩
      rw [hno] at this
      cases this
    rw [this]

/-- C1 is not met by the code: on a store without the row `total_requests` one
report `{type:"request"}` is answered `{status:"ok"}` with no storage failure,
the `UPDATE` matches no row, and the total returned by `handleGetStats` is 0
before and still 0, not 1, after; the error branch, on the same store, does
create its missing row. -/
theorem request_report_lost_without_row :
    (handleGetStats ⟨false, ⟨[], []⟩⟩ .done .done).1.total = some 0 ∧
    handleReport asciiLower ⟨false, ⟨[], []⟩⟩ .done requestBody =
      ({ status := 200, headers := [("Access-Control-Allow-Origin", "*")],
         body := .json (.status "ok") }, ⟨true, ⟨[], []⟩⟩) ∧
    (handleGetStats (reportRequests asciiLower 1 ⟨false, ⟨[], []⟩⟩) .done .done).1.total
      = some 0 ∧
    (handleGetStats (reportRequests asciiLower 1 ⟨false, ⟨[], []⟩⟩) .done .done).1.total
      ≠ some (0 + 1) ∧
    (handleReport asciiLower ⟨false, ⟨[], []⟩⟩ .done (errorBody "kw")).2.db =
      ⟨[], [⟨"kw", 1⟩]⟩ := by
  decide

/-- C2: for a store with unique source names and a non-empty source string
`s` whose lower-cased form is a known code, one report `{type:"error", source:s}`
without storage failure is acknowledged, stores the row under the lower-cased
name and raises by exactly 1 the count `handleGetStats` returns for the
upper-cased code; without a row beforehand the count goes from 0 to 1 and a
second report brings it to 2. -/
theorem error_report_raises_count (lower : String → String) (w : World)
    (h : w.db.UniqueSources) (s code : String) (hs : s ≠ "") (hl : lower s = code)
    (hc : code ∈ allSources) :
    (handleReport lower w .done (errorBody s)).1 = okResponse ∧
    (∃ c : Int,
      (handleGetStats w .done .done).1.count (toUpperCase code) = some c ∧
      (handleGetStats (handleReport lower w .done (errorBody s)).2 .done .done).1.count
        (toUpperCase code) = some (c + 1) ∧
      ({ source_name := code, error_count := c + 1 } : ErrorRow) ∈
        (handleReport lower w .done (errorBody s)).2.db.source_errors) ∧
    ((∀ r ∈ w.db.source_errors, r.source_name ≠ code) →
      (handleGetStats w .done .done).1.count (toUpperCase code) = some 0 ∧
      (handleGetStats (handleReport lower w .done (errorBody s)).2 .done .done).1.count
        (toUpperCase code) = some 1 ∧
      (handleGetStats (handleReport lower (handleReport lower w .done (errorBody s)).2 .done
        (errorBody s)).2 .done .done).1.count (toUpperCase code) = some 2) := by
  obtain ⟨hok, hdb⟩ := handleReport_error_done lower w s hs
  have hu1 : (handleReport lower w .done (errorBody s)).2.db.UniqueSources := by
    rw [hdb]; exact upsertError_unique _ _ h
  obtain ⟨_, hdb2⟩ := handleReport_error_done lower
    (handleReport lower w .done (errorBody s)).2 s hs
  have hu2 : (handleReport lower (handleReport lower w .done (errorBody s)).2 .done
      (errorBody s)).2.db.UniqueSources := by
    rw [hdb2]; exact upsertError_unique _ _ hu1
  have c0 := stats_count w h code hc
  have c1 := stats_count _ hu1 code hc
  have c2 := stats_count _ hu2 code hc
  have e1 : storedCount (handleReport lower w .done (errorBody s)).2.db code =
      storedCount w.db code + 1 := by
    rw [hdb, hl]; exact countIn_upsert_same code w.db
  have e2 : storedCount (handleReport lower (handleReport lower w .done (errorBody s)).2 .done
      (errorBody s)).2.db code = storedCount w.db code + 1 + 1 := by
    rw [hdb2, hl, ← e1]; exact countIn_upsert_same code _
  refine ⟨hok, ⟨storedCount w.db code, c0, ?_, ?_⟩, ?_⟩
  · rw [c1, e1]
  · rw [hdb, hl]; exact upsertError_mem code w.db h
  · intro hno
    have z : storedCount w.db code = 0 := countIn_of_not_mem _ _ hno
    rw [c0, c1, c2, e1, e2, z]
    exact ⟨rfl, rfl, rfl⟩

/-- Witness of C2: the source `Kw` in mixed case, reported to a store without a
row of `kw`. -/
theorem error_report_raises_count_witness :
    (handleGetStats ⟨false, ⟨[], [⟨"tx", 4⟩]⟩⟩ .done .done).1.count "KW" = some 0 ∧
    (handleGetStats (handleReport asciiLower ⟨false, ⟨[], [⟨"tx", 4⟩]⟩⟩ .done
      (errorBody "Kw")).2 .done .done).1.count "KW" = some 1 ∧
    (handleGetStats (handleReport asciiLower (handleReport asciiLower
      ⟨false, ⟨[], [⟨"tx", 4⟩]⟩⟩ .done (errorBody "Kw")).2 .done
      (errorBody "Kw")).2 .done .done).1.count "KW" = some 2 :=
  (error_report_raises_count asciiLower ⟨false, ⟨[], [⟨"tx", 4⟩]⟩⟩ (by decide) "Kw" "kw"
    (by decide) (by decide) (by decide)).2.2 (by decide)

/-- C4 (amended): a report whose parsed body is not `null`, whose type is not
"request" and whose type is not "error" or whose source is missing, empty or
otherwise falsy, is answered with status 200, the header
`Access-Control-Allow-Origin: *` and the body `{status:"ok"}` whatever the
storage would do, leaves the tables unchanged, and every later
`handleGetStats` answers as it would have before. -/
theorem report_ignored (lower : String → String) (w : World) (x : Exec) (body : JsVal)
    (hn : body ≠ .null) (hreq : (body.prop "type").isStr "request" = false)
    (herr : (body.prop "type").isStr "error" = false ∨ (body.prop "source").truthy = false) :
    (handleReport lower w x (.ok body)).1 =
      { status := 200, headers := [("Access-Control-Allow-Origin", "*")],
        body := .json (.status "ok") } ∧
    (handleReport lower w x (.ok body)).2.db = w.db ∧
    ∀ x1 x2 : Exec, (handleGetStats (handleReport lower w x (.ok body)).2 x1 x2).1 =
      (handleGetStats w x1 x2).1 := by
  have hand : ((body.prop "type").isStr "error" && (body.prop "source").truthy) = false := by
    rcases herr with h | h <;> simp [h]
  have hrun : handleReport lower w x (.ok body) = (okResponse, getDbPool w) := by
    cases body with
    | null => exact absurd rfl hn
    | _ => simp only [handleReport, hreq, hand, Bool.false_eq_true, if_false]
  rw [hrun]
  refine ⟨rfl, getDbPool_db w, fun x1 x2 => ?_⟩
  rw [handleGetStats_response, handleGetStats_response, getDbPool_db]

/-- Witness of C4 (amended): a report of an unknown type against a store with rows. -/
theorem report_ignored_witness :
    (handleReport asciiLower ⟨false, ⟨[⟨"total_requests", 7⟩], [⟨"kw", 3⟩]⟩⟩ .done
      (.ok (.obj [("type", .str "ping"), ("source", .str "kw")]))).1 =
      { status := 200, headers := [("Access-Control-Allow-Origin", "*")],
        body := .json (.status "ok") } ∧
    (handleReport asciiLower ⟨false, ⟨[⟨"total_requests", 7⟩], [⟨"kw", 3⟩]⟩⟩ .done
      (.ok (.obj [("type", .str "ping"), ("source", .str "kw")]))).2.db =
      ⟨[⟨"total_requests", 7⟩], [⟨"kw", 3⟩]⟩ :=
  have h := report_ignored asciiLower ⟨false, ⟨[⟨"total_requests", 7⟩], [⟨"kw", 3⟩]⟩⟩ .done
    (.obj [("type", .str "ping"), ("source", .str "kw")]) (fun e => JsVal.noConfusion e)
    (by decide) (Or.inl (by decide))
  ⟨h.1, h.2.1⟩

/-- C4 fails as stated: the type of the body `null` is neither "request" nor
"error" (no type can be read from it at all), and the report is answered with
status 500 and the body `{error: message}`, not with `{status:"ok"}`. -/
theorem report_ignored_counterexample :
    (JsVal.null.prop "type").isStr "request" = false ∧
    (JsVal.null.prop "type").isStr "error" = false ∧
    handleReport asciiLower ⟨true, ⟨[⟨"total_requests", 7⟩], [⟨"kw", 3⟩]⟩⟩ .done (.ok .null) =
      ({ status := 500, headers := [], body := .json (.error destructureError) },
        ⟨true, ⟨[⟨"total_requests", 7⟩], [⟨"kw", 3⟩]⟩⟩) ∧
    (handleReport asciiLower ⟨true, ⟨[⟨"total_requests", 7⟩], [⟨"kw", 3⟩]⟩⟩ .done
      (.ok .null)).1 ≠
      { status := 200, headers := [("Access-Control-Allow-Origin", "*")],
        body := .json (.status "ok") } := by
  decide

/-- C5 (amended): without storage failure `handleReport` answers with status
200, the header `Access-Control-Allow-Origin: *` and the body `{status:"ok"}`
every parsed body other than `null` in which, when the type is "error" and the
source is truthy, the source is a string; it answers the body `null`, and every
body whose type is "error" and whose source is truthy and not a string, with
status 500, no header and the body `{error: message}` of the `TypeError`,
leaving the tables as they were. -/
theorem report_acknowledged (lower : String → String) (w : World) (body : JsVal) :
    (body ≠ .null →
      ((body.prop "type").isStr "error" = true → (body.prop "source").truthy = true →
        ∃ s, body.prop "source" = .str s) →
      (handleReport lower w .done (.ok body)).1 =
        { status := 200, headers := [("Access-Control-Allow-Origin", "*")],
          body := .json (.status "ok") }) ∧
    (body = .null →
      handleReport lower w .done (.ok body) =
        ({ status := 500, headers := [], body := .json (.error destructureError) }, w)) ∧
    (body ≠ .null → (body.prop "type").isStr "error" = true →
      (body.prop "source").truthy = true → (∀ s, body.prop "source" ≠ .str s) →
      (handleReport lower w .done (.ok body)).1 =
        { status := 500, headers := [], body := .json (.error notAFunctionError) } ∧
      (handleReport lower w .done (.ok body)).2.db = w.db) := by
  have hrun : body ≠ .null → handleReport lower w .done (.ok body) =
      (if (body.prop "type").isStr "request" then
        afterWrite .done updateTotal (getDbPool w)
      else if (body.prop "type").isStr "error" && (body.prop "source").truthy then
        match body.prop "source" with
        | .str s => afterWrite .done (upsertError (lower s)) (getDbPool w)
        | _ => (errorResponse notAFunctionError, getDbPool w)
      else (okResponse, getDbPool w)) := by
    intro hn
    cases body with
    | null => exact absurd rfl hn
    | _ => rfl
  refine ⟨?_, ?_, ?_⟩
  · intro hn hs
    rw [hrun hn]
    split_ifs with h1 h2
    · rw [afterWrite_response]; rfl
    · rw [Bool.and_eq_true] at h2
      obtain ⟨s, hsrc⟩ := hs h2.1 h2.2
      rw [hsrc]
      simp only [afterWrite_response]
      rfl
    · rfl
  · intro hnull
    subst hnull
    rfl
  · intro hn herr htr hns
    have h1 : (body.prop "type").isStr "request" = false := by
      cases ht : body.prop "type" with
      | str t =>
        rw [ht] at herr
        have : t = "error" := by simpa [JsVal.isStr] using herr
        subst this
        rfl
      | _ => rfl
    rw [hrun hn, h1, herr, htr]
    simp only [Bool.false_eq_true, if_false, Bool.and_self, if_true]
    cases hsrc : body.prop "source" with
    | str s => exact absurd hsrc (hns s)
    | _ => exact ⟨rfl, getDbPool_db w⟩

/-- Witness of C5 (amended): an error report with a string source is
acknowledged, the body `null` and an error report with the source 5 are
answered 500. -/
theorem report_acknowledged_witness :
    (handleReport asciiLower ⟨false, ⟨[], []⟩⟩ .done
      (.ok (.obj [("type", .str "error"), ("source", .str "KW")]))).1 =
      { status := 200, headers := [("Access-Control-Allow-Origin", "*")],
        body := .json (.status "ok") } ∧
    handleReport asciiLower ⟨false, ⟨[], []⟩⟩ .done (.ok .null) =
      ({ status := 500, headers := [], body := .json (.error destructureError) },
        ⟨false, ⟨[], []⟩⟩) ∧
    (handleReport asciiLower ⟨false, ⟨[], []⟩⟩ .done
      (.ok (.obj [("type", .str "error"), ("source", .num 5)]))).1 =
      { status := 500, headers := [], body := .json (.error notAFunctionError) } :=
  ⟨(report_acknowledged asciiLower ⟨false, ⟨[], []⟩⟩
      (.obj [("type", .str "error"), ("source", .str "KW")])).1 (fun e => JsVal.noConfusion e)
      (fun _ _ => ⟨"KW", rfl⟩),
   (report_acknowledged asciiLower ⟨false, ⟨[], []⟩⟩ .null).2.1 rfl,
   ((report_acknowledged asciiLower ⟨false, ⟨[], []⟩⟩
      (.obj [("type", .str "error"), ("source", .num 5)])).2.2 (fun e => JsVal.noConfusion e)
      rfl (by decide) (fun s e => JsVal.noConfusion (show JsVal.num 5 = JsVal.str s from e))).1⟩

/-- C5 fails as stated: the body `null` and the body `{type:"error", source:5}`
parse as JSON and, with no storage failure, are answered with status 500 and
not with `{status:"ok"}`. -/
theorem report_acknowledged_counterexample :
    (handleReport asciiLower ⟨false, ⟨[], []⟩⟩ .done (.ok .null)).1.status = 500 ∧
    (handleReport asciiLower ⟨false, ⟨[], []⟩⟩ .done (.ok .null)).1 ≠
      { status := 200, headers := [("Access-Control-Allow-Origin", "*")],
        body := .json (.status "ok") } ∧
    (handleReport asciiLower ⟨false, ⟨[], []⟩⟩ .done
      (.ok (.obj [("type", .str "error"), ("source", .num 5)]))).1.status = 500 ∧
    (handleReport asciiLower ⟨false, ⟨[], []⟩⟩ .done
      (.ok (.obj [("type", .str "error"), ("source", .num 5)]))).1 ≠
      { status := 200, headers := [("Access-Control-Allow-Origin", "*")],
        body := .json (.status "ok") } := by
  decide

/-- C6: a report whose body is not valid JSON is answered with status 500 and
the body `{error: message}` and leaves the process, tables included, as it
was; a report whose statement fails, and a stats request whose first or second
query fails, is answered with status 500 and the body `{error: message}` of
the failure. -/
theorem failures_become_500 (lower : String → String) (w : World) :
    (∀ (x : Exec) (m : String),
      handleReport lower w x (.error m) =
        ({ status := 500, headers := [], body := .json (.error m) }, w)) ∧
    (∀ (x : Exec) (body : JsVal) (m : String), x.failure = some m → body ≠ .null →
      ((body.prop "type").isStr "request" = true ∨
        ((body.prop "type").isStr "error" = true ∧
          ∃ s, s ≠ "" ∧ body.prop "source" = .str s)) →
      (handleReport lower w x (.ok body)).1 =
        { status := 500, headers := [], body := .json (.error m) }) ∧
    (∀ (x1 x2 : Exec) (m : String),
      (x1.failure = some m ∨ (x1.failure = none ∧ x2.failure = some m)) →
      (handleGetStats w x1 x2).1 =
        { status := 500, headers := [], body := .json (.error m) }) := by
  refine ⟨fun x m => rfl, ?_, ?_⟩
  · intro x body m hx hn hrun
    have hstep : (handleReport lower w x (.ok body)).1 =
        (if (body.prop "type").isStr "request" then
          afterWrite x updateTotal (getDbPool w)
        else if (body.prop "type").isStr "error" && (body.prop "source").truthy then
          match body.prop "source" with
          | .str s => afterWrite x (upsertError (lower s)) (getDbPool w)
          | _ => (errorResponse notAFunctionError, getDbPool w)
        else (okResponse, getDbPool w)).1 := by
      cases body with
      | null => exact absurd rfl hn
      | _ => rfl
    rw [hstep]
    rcases hrun with h | ⟨h, s, hs, hsrc⟩
    · rw [if_pos h, afterWrite_response, hx]
      rfl
    · have h1 : (body.prop "type").isStr "request" = false := by
        cases ht : body.prop "type" with
        | str t =>
          rw [ht] at h
          have : t = "error" := by simpa [JsVal.isStr] using h
          subst this
          rfl
        | _ => rfl
      have h2 : ((body.prop "type").isStr "error" && (body.prop "source").truthy) = true := by
        rw [h, hsrc]
        simp [JsVal.truthy, hs]
      rw [h1, h2, hsrc]
      simp only [Bool.false_eq_true, if_false, if_true, afterWrite_response, hx]
      rfl
  · intro x1 x2 m h
    rw [handleGetStats_response]
    rcases h with h | ⟨h1, h2⟩
    · rw [h]; rfl
    · rw [h1, h2]; rfl

/-- Witness of C6: a malformed body, a refused `UPDATE`, a refused second query. -/
theorem failures_become_500_witness :
    (handleReport asciiLower ⟨true, ⟨[⟨"total_requests", 7⟩], []⟩⟩ .done
      (.error "Unexpected token")).1.status = 500 ∧
    (handleReport asciiLower ⟨true, ⟨[⟨"total_requests", 7⟩], []⟩⟩ (.refused "ECONNREFUSED")
      requestBody).1.body = .json (.error "ECONNREFUSED") ∧
    (handleGetStats ⟨true, ⟨[⟨"total_requests", 7⟩], []⟩⟩ .done (.dropped "ETIMEDOUT")).1.body
      = .json (.error "ETIMEDOUT") :=
  have h := failures_become_500 asciiLower ⟨true, ⟨[⟨"total_requests", 7⟩], []⟩⟩
  ⟨congrArg (fun r => r.1.status) (h.1 .done "Unexpected token"),
   congrArg Response.body (h.2.1 (.refused "ECONNREFUSED") (.obj [("type", .str "request")])
    "ECONNREFUSED" rfl (fun e => JsVal.noConfusion e) (Or.inl rfl)),
   congrArg Response.body (h.2.2 .done (.dropped "ETIMEDOUT") "ETIMEDOUT" (Or.inr ⟨rfl, rfl⟩))⟩

/-- C7: whatever the request (path, method, body) and whatever the outcome of
its storage round-trips, the tables after `fetch` have grown from the tables
before: every row is still there, no value is lower, the global counter and
every source count read at least what they read before, and counts that were
non-negative stay non-negative. -/
theorem counters_monotone (lower : String → String) (w : World) (request : Request)
    (x1 x2 : Exec) :
    w.db.Grew (fetch lower w request x1 x2).2.db := by
  rcases fetch_db_cases lower w request x1 x2 with h | h | ⟨name, h⟩
  · rw [h]; exact grew_refl _
  · rw [h]; exact grew_updateTotal _
  · rw [h]; exact grew_upsertError _ _

/-- C8 fails on the failure responses: the 500 response to a report with a
malformed body, and the 500 response to a stats request whose query fails,
carry no header at all, so no `Access-Control-Allow-Origin`. -/
theorem error_responses_lack_cors :
    (fetch asciiLower ⟨false, ⟨[], []⟩⟩ ⟨"POST", "/api/report", .error "Unexpected token"⟩
      .done .done).1 =
      { status := 500, headers := [], body := .json (.error "Unexpected token") } ∧
    (fetch asciiLower ⟨false, ⟨[], []⟩⟩ ⟨"GET", "/api/stats", .error "Unexpected end"⟩
      (.refused "ECONNREFUSED") .done).1 =
      { status := 500, headers := [], body := .json (.error "ECONNREFUSED") } ∧
    ("Access-Control-Allow-Origin", "*") ∉
      (fetch asciiLower ⟨false, ⟨[], []⟩⟩ ⟨"POST", "/api/report", .error "Unexpected token"⟩
        .done .done).1.headers ∧
    ("Access-Control-Allow-Origin", "*") ∈
      (fetch asciiLower ⟨false, ⟨[], []⟩⟩ ⟨"POST", "/api/report", requestBody⟩
        .done .done).1.headers := by
  decide

/-- C9: `fetch` answers `GET /` with the static HTML document and leaves the
process as it was, answers `GET /api/stats` as `handleGetStats` does and
`POST /api/report` as `handleReport` does, and answers every other pair of path
and method with status 404, no header and the body "Not Found", leaving the
process, tables included, as it was. -/
theorem fetch_routing (lower : String → String) (w : World) (request : Request)
    (x1 x2 : Exec) :
    (request.path = "/" → request.method = "GET" →
      fetch lower w request x1 x2 =
        ({ status := 200, headers := [("Content-Type", "text/html;charset=UTF-8")],
           body := renderHTML }, w)) ∧
    (request.path = "/api/stats" → request.method = "GET" →
      fetch lower w request x1 x2 = handleGetStats w x1 x2) ∧
    (request.path = "/api/report" → request.method = "POST" →
      fetch lower w request x1 x2 = handleReport lower w x1 request.json) ∧
    (¬ (request.path = "/" ∧ request.method = "GET") →
      ¬ (request.path = "/api/stats" ∧ request.method = "GET") →
      ¬ (request.path = "/api/report" ∧ request.method = "POST") →
      fetch lower w request x1 x2 =
        ({ status := 404, headers := [], body := .text "Not Found" }, w)) := by
  refine ⟨?_, ?_, ?_, ?_⟩
  · intro hp hm
    unfold fetch
    rw [if_pos ⟨hp, hm⟩]
  · intro hp hm
    unfold fetch
    rw [if_neg (by rw [hp]; intro h; exact absurd h.1 (by decide)), if_pos ⟨hp, hm⟩]
  · intro hp hm
    unfold fetch
    rw [if_neg (by rw [hp]; intro h; exact absurd h.1 (by decide)),
      if_neg (by rw [hp]; intro h; exact absurd h.1 (by decide)), if_pos ⟨hp, hm⟩]
  · intro h1 h2 h3
    unfold fetch
    rw [if_neg h1, if_neg h2, if_neg h3]

/-- Witness of C9: `POST /`, `GET /api/report` and `OPTIONS /api/report` are
answered 404 and the process is untouched. -/
theorem fetch_routing_witness :
    fetch asciiLower ⟨false, ⟨[⟨"total_requests", 7⟩], []⟩⟩ ⟨"POST", "/", requestBody⟩
      .done .done =
      ({ status := 404, headers := [], body := .text "Not Found" },
        ⟨false, ⟨[⟨"total_requests", 7⟩], []⟩⟩) ∧
    fetch asciiLower ⟨false, ⟨[⟨"total_requests", 7⟩], []⟩⟩ ⟨"GET", "/api/report", requestBody⟩
      .done .done =
      ({ status := 404, headers := [], body := .text "Not Found" },
        ⟨false, ⟨[⟨"total_requests", 7⟩], []⟩⟩) ∧
    fetch asciiLower ⟨false, ⟨[⟨"total_requests", 7⟩], []⟩⟩
      ⟨"OPTIONS", "/api/report", requestBody⟩ .done .done =
      ({ status := 404, headers := [], body := .text "Not Found" },
        ⟨false, ⟨[⟨"total_requests", 7⟩], []⟩⟩) :=
  ⟨(fetch_routing asciiLower ⟨false, ⟨[⟨"total_requests", 7⟩], []⟩⟩
      ⟨"POST", "/", requestBody⟩ .done .done).2.2.2 (by decide) (by decide) (by decide),
   (fetch_routing asciiLower ⟨false, ⟨[⟨"total_requests", 7⟩], []⟩⟩
      ⟨"GET", "/api/report", requestBody⟩ .done .done).2.2.2 (by decide) (by decide) (by decide),
   (fetch_routing asciiLower ⟨false, ⟨[⟨"total_requests", 7⟩], []⟩⟩
      ⟨"OPTIONS", "/api/report", requestBody⟩ .done .done).2.2.2 (by decide) (by decide)
      (by decide)⟩

/-- C10: a `{type:"request"}` report leaves the rows of `source_errors` as they
were; a `{type:"error", source:s}` report leaves `global_stats` and every error
row named otherwise than the lower-cased `s` as they were, and when the
lower-cased `s` is not a known code (source names unique) the store holds its
row with the count raised by one while every `handleGetStats` answers as
before; `handleGetStats` leaves the tables, and `GET /` the whole process, as
they were.  The frame parts hold whatever the outcome of the storage round-trip. -/
theorem handlers_frame (lower : String → String) (w : World) :
    (∀ x : Exec, (handleReport lower w x requestBody).2.db.source_errors = w.db.source_errors) ∧
    (∀ (x : Exec) (s : String),
      (handleReport lower w x (errorBody s)).2.db.global_stats = w.db.global_stats ∧
      (handleReport lower w x (errorBody s)).2.db.source_errors.filter
          (fun r => decide (r.source_name ≠ lower s)) =
        w.db.source_errors.filter (fun r => decide (r.source_name ≠ lower s))) ∧
    (∀ (x : Exec) (s : String), w.db.UniqueSources → lower s ∉ allSources →
      (∀ x1 x2 : Exec, (handleGetStats (handleReport lower w x (errorBody s)).2 x1 x2).1 =
        (handleGetStats w x1 x2).1) ∧
      (s ≠ "" → ({ source_name := lower s, error_count := storedCount w.db (lower s) + 1 }
        : ErrorRow) ∈ (handleReport lower w .done (errorBody s)).2.db.source_errors)) ∧
    (∀ x1 x2 : Exec, (handleGetStats w x1 x2).2.db = w.db) ∧
    (∀ (request : Request) (x1 x2 : Exec), request.path = "/" → request.method = "GET" →
      (fetch lower w request x1 x2).2 = w) := by
  refine ⟨?_, ?_, ?_, ?_, ?_⟩
  · intro x
    rw [handleReport_request, afterWrite_db, getDbPool_db]
    cases x.applied <;> rfl
  · intro x s
    rcases handleReport_error_db lower w x s with h | h
    · rw [h]; exact ⟨rfl, rfl⟩
    · rw [h]; exact ⟨upsertError_global _ _, upsertError_filter _ _⟩
  · intro x s hu hk
    refine ⟨fun x1 x2 => ?_, fun hs => ?_⟩
    · rcases handleReport_error_db lower w x s with h | h
      · rw [handleGetStats_response, handleGetStats_response, h]
      · refine handleGetStats_congr w _ hu (by rw [h]; exact upsertError_unique _ _ hu) ?_ ?_ x1 x2
        · rw [h]; unfold storedTotal; rw [upsertError_global]
        · intro code hc
          rw [h]
          exact countIn_upsert_other (lower s) code w.db (fun e => hk (e ▸ hc))
    · rw [(handleReport_error_done lower w s hs).2]
      exact upsertError_mem _ _ hu
  · intro x1 x2
    rw [handleGetStats_world, getDbPool_db]
  · intro request x1 x2 hp hm
    unfold fetch
    rw [if_pos ⟨hp, hm⟩]

/-- Witness of C10: an error report of the unknown source `ZZ` adds the row
`zz` and the stats answer before and after is the same. -/
theorem handlers_frame_witness :
    (handleReport asciiLower ⟨false, ⟨[⟨"total_requests", 7⟩], [⟨"kw", 3⟩]⟩⟩ .done
      (errorBody "ZZ")).2.db = ⟨[⟨"total_requests", 7⟩], [⟨"kw", 3⟩, ⟨"zz", 1⟩]⟩ ∧
    (handleGetStats (handleReport asciiLower ⟨false, ⟨[⟨"total_requests", 7⟩], [⟨"kw", 3⟩]⟩⟩
      .done (errorBody "ZZ")).2 .done .done).1 =
      (handleGetStats ⟨false, ⟨[⟨"total_requests", 7⟩], [⟨"kw", 3⟩]⟩⟩ .done .done).1 :=
  ⟨by decide,
   ((handlers_frame asciiLower ⟨false, ⟨[⟨"total_requests", 7⟩], [⟨"kw", 3⟩]⟩⟩).2.2.1 .done
    "ZZ" (by decide) (by decide)).1 .done .done⟩

end LxStats
